import Mathlib

/-!
Verification of the illumeasure T-10A serial-protocol engine.

This file gives a shallow embedding of the protocol-relevant functions of
src/illumeasure.py (class Messenger and class Protocol) and proves the spec's
claims about them.  Messages are lists of characters; Python byte-string
slicing s[a:b] is pySlice; every raise site of the source is a constructor of
the Err type and fallible functions return Except Err.  The source's Python
method-binding details (methods are modelled as functions of the data they
read) and its int-formatting of head ids are embedded at the data level: a
receptor-head id is a natural number and "%02d" / f-string two-digit
formatting is dec2.  Exact rationals stand in for Python floats; every
concrete value used in a proof is far from any rounding boundary.
-/

/-- Python slice s[a:b] for non-negative bounds (clamped, end-exclusive). -/
def pySlice (l : List α) (a b : Nat) : List α := (l.take b).drop a

/-- The raise sites of the source, one constructor per distinct exception:
BCCException, PowerOffError, the two EEPROMError raises, LowBatteryError,
the over-range ValueError, the invalid-range-setting ValueError,
ProtocolException, a ValueError from an int() parse failure, an IndexError
from string indexing, and a transport failure (no reply available). -/
inductive Err where
  | bcc
  | powerOff
  | eeprom (variant : Nat)
  | lowBattery
  | overRange
  | invalidRange
  | protocol
  | valueError
  | indexError
  | transport
deriving DecidableEq, Repr

/-- Value of one decimal digit character, as int() reads it.  Python's int()
also strips whitespace and signs; only bare digit strings occur in this
development, so the strict digit reading is the faithful fragment. -/
def decDigit? (c : Char) : Option Nat :=
  if 48 ≤ c.toNat ∧ c.toNat ≤ 57 then some (c.toNat - 48) else none

/-- Python int(s) on a decimal-digit string (none on empty or non-digit). -/
def parseDec (l : List Char) : Option Nat :=
  if l = [] then none
  else l.foldlM (fun a c => (decDigit? c).map (fun d => a * 10 + d)) 0

/-- Value of one hexadecimal digit character, upper or lower case, as
int(s, 16) reads it. -/
def hexDigit? (c : Char) : Option Nat :=
  if 48 ≤ c.toNat ∧ c.toNat ≤ 57 then some (c.toNat - 48)
  else if 97 ≤ c.toNat ∧ c.toNat ≤ 102 then some (c.toNat - 87)
  else if 65 ≤ c.toNat ∧ c.toNat ≤ 70 then some (c.toNat - 55)
  else none

/-- Python int(s, 16) on a hex-digit string (none on empty or non-hex). -/
def parseHex (l : List Char) : Option Nat :=
  if l = [] then none
  else l.foldlM (fun a c => (hexDigit? c).map (fun d => a * 16 + d)) 0

/-- Python "%02x" formatting: lowercase hex digits, zero-padded to width 2. -/
def hex2 (n : Nat) : List Char :=
  let ds := Nat.toDigits 16 n
  if ds.length = 1 then '0' :: ds else ds

/-- Python "%02d" formatting: decimal digits, zero-padded to width 2. -/
def dec2 (n : Nat) : List Char :=
  let ds := Nat.toDigits 10 n
  if ds.length = 1 then '0' :: ds else ds

/-- XOR of the character values of a message span. -/
def xorAll (l : List Char) : Nat := l.foldl (fun a c => a ^^^ c.toNat) 0

/-- Messenger.computeBcc: XOR-reduce the byte values of the span and render
as "%02x".  (Python's reduce needs a non-empty span; every call site passes
one, and folding from 0, the XOR identity, agrees there.) -/
def computeBcc (i : List Char) : List Char := hex2 (xorAll i)

/-- Messenger.messageEncodeShort: "%02d" of the head, then command, then
parameter, then ETX; the BCC of that span; framed by STX ... CR LF.
The source validates nothing here: any head and any parameter length are
accepted and formatted. -/
def messageEncodeShort (receptorHead : Nat) (command parameter : List Char) :
    List Char :=
  let bccable := dec2 receptorHead ++ command ++ parameter ++ ['\x03']
  '\x02' :: (bccable ++ computeBcc bccable ++ ['\x0D', '\x0A'])

/-- Messenger.__assertBcc: recompute the BCC of the span and compare with the
received BCC, both read back through int(_, 16); BCCException on mismatch,
ValueError when a side does not parse as hex. -/
def assertBcc (bccable actualBcc : List Char) : Except Err Unit :=
  match parseHex actualBcc, parseHex (computeBcc bccable) with
  | some a, some e => if a ≠ e then .error .bcc else .ok ()
  | _, _ => .error .valueError

/-- Messenger.messageDecodeShort: BCC check over i[1:10] against i[10:12],
then head int(i[1:3]), command i[3:5], parameter i[5:9].  No length or
framing-byte check appears in the source. -/
def messageDecodeShort (i : List Char) :
    Except Err (Nat × List Char × List Char) := do
  assertBcc (pySlice i 1 10) (pySlice i 10 12)
  match parseDec (pySlice i 1 3) with
  | some receptorHead => .ok (receptorHead, pySlice i 3 5, pySlice i 5 9)
  | none => .error .valueError

/-- Six spaces: the empty measurement field. -/
def spaces6 : List Char := [' ', ' ', ' ', ' ', ' ', ' ']

/-- The dataToNumber closure of Messenger.messageDecodeLong: six spaces is
None; otherwise v = int(i[1:5]), e = int(i[5]) - 4, value v * 10 ^ e over the
exact rationals, negated when i[0] is a minus sign. -/
def dataToNumber (i : List Char) : Except Err (Option ℚ) :=
  if i = spaces6 then .ok none
  else
    match parseDec (pySlice i 1 5) with
    | none => .error .valueError
    | some v =>
      match i.get? 5 with
      | none => .error .indexError
      | some c =>
        match decDigit? c with
        | none => .error .valueError
        | some d =>
          let e : ℤ := (d : ℤ) - 4
          let r : ℚ := (v : ℚ) * (10 : ℚ) ^ e
          match i.get? 0 with
          | none => .error .indexError
          | some s => .ok (some (if s = '-' then -r else r))

/-- A decoded long frame: head, command, status word and the three data
channels, as Messenger.messageDecodeLong returns them. -/
structure LongMsg where
  head : Nat
  command : List Char
  status : List Char
  data : Option ℚ × Option ℚ × Option ℚ
deriving DecidableEq, Repr

/-- Messenger.messageDecodeLong: BCC check over i[1:28] against i[28:30],
then head int(i[1:3]), command i[3:5], status i[5:9] and the three 6-byte
data fields i[9:15], i[15:21], i[21:27] through dataToNumber.  No length or
framing-byte check appears in the source. -/
def messageDecodeLong (i : List Char) : Except Err LongMsg := do
  assertBcc (pySlice i 1 28) (pySlice i 28 30)
  match parseDec (pySlice i 1 3) with
  | none => .error .valueError
  | some receptorHead => do
    let data1 ← dataToNumber (pySlice i 9 15)
    let data2 ← dataToNumber (pySlice i 15 21)
    let data3 ← dataToNumber (pySlice i 21 27)
    .ok ⟨receptorHead, pySlice i 3 5, pySlice i 5 9, (data1, data2, data3)⟩

/-- The battery-level half of Messenger.checkStatus: status[3] of "0" or "2"
passes, "1" or "3" raises LowBatteryError, anything else falls through. -/
def battCheck (status : List Char) : Except Err Unit :=
  match status.get? 3 with
  | none => .error .indexError
  | some battCode =>
    if battCode = '0' ∨ battCode = '2' then .ok ()
    else if battCode = '1' ∨ battCode = '3' then .error .lowBattery
    else .ok ()

/-- Messenger.checkStatus on the status field (the source reads decoded[2],
which is the status of a long decode and the parameter of a short decode):
status[1] of space or "7" passes, "1" raises PowerOffError, "2" and "3"
raise the two EEPROMError variants, "5" raises the over-range ValueError,
and any other code falls through silently; then the battery check runs. -/
def checkStatus (status : List Char) : Except Err Unit :=
  match status.get? 1 with
  | none => .error .indexError
  | some errorCode =>
    if errorCode = ' ' ∨ errorCode = '7' then battCheck status
    else if errorCode = '1' then .error .powerOff
    else if errorCode = '2' then .error (.eeprom 1)
    else if errorCode = '3' then .error (.eeprom 2)
    else if errorCode = '5' then .error .overRange
    else battCheck status

/-- Messenger.receiveShort on the reply the transport delivered: decode,
check status (decoded[2] is the parameter slot), return the decoded tuple. -/
def receiveShort (reply : List Char) :
    Except Err (Nat × List Char × List Char) := do
  let d ← messageDecodeShort reply
  checkStatus d.2.2
  return d

/-- Messenger.receiveLong on the reply the transport delivered: decode,
check status, return the decoded message. -/
def receiveLong (reply : List Char) : Except Err LongMsg := do
  let d ← messageDecodeLong reply
  checkStatus d.status
  return d

/-- A Python value as the source compares them: an int or a str.  Python ==
across the two types is False, which is structural disequality here. -/
inductive PyVal where
  | int (n : ℤ)
  | str (s : List Char)
deriving DecidableEq, Repr

/-- The responseExpected tuple of Protocol.switchToPcConnectionMode: the
string "00", the string "54" and four spaces. -/
def pcModeExpected : PyVal × PyVal × PyVal :=
  (.str ['0', '0'], .str ['5', '4'], .str [' ', ' ', ' ', ' '])

/-- Protocol.switchToPcConnectionMode, given the echo frame the device sent
back: receive and decode it, then compare the decoded tuple - whose head is
an int - against responseExpected - whose head is the string "00" - and
raise ProtocolException when the tuples differ. -/
def switchToPcConnectionMode (reply : List Char) : Except Err Unit := do
  let d ← receiveShort reply
  let responseActual : PyVal × PyVal × PyVal :=
    (.int (d.1 : ℤ), .str d.2.1, .str d.2.2)
  if responseActual ≠ pcModeExpected then .error .protocol else .ok ()

/-- The hold flag character of Protocol.readMeasurementData. -/
def holdCode (hold : Bool) : Char := if hold then '1' else '0'

/-- The colour-correction flag character of Protocol.readMeasurementData. -/
def ccfCode (ccf : Bool) : Char := if ccf then '2' else '3'

/-- The range argument of Protocol.readMeasurementData: the string "auto" or
a numeric value; float(range) is embedded as the exact rational value. -/
inductive RangeArg where
  | auto
  | num (q : ℚ)

/-- The range-code selection of Protocol.readMeasurementData: "auto" is the
sentinel "0"; a numeric value falls into one of five decade bands; anything
else (above the top band, or negative) raises the invalid-range ValueError. -/
def rangeCode : RangeArg → Except Err Char
  | .auto => .ok '0'
  | .num q =>
    if 0 ≤ q ∧ q ≤ 29.99 then .ok '1'
    else if 29.99 < q ∧ q ≤ 299.9 then .ok '2'
    else if 299.9 < q ∧ q ≤ 2999 then .ok '3'
    else if 2999 < q ∧ q ≤ 29999 then .ok '4'
    else if 29999 < q ∧ q ≤ 299999 then .ok '5'
    else .error .invalidRange

/-- The read/configure short frame Protocol.readMeasurementData sends to one
head: command "10" with the hold, ccf and range codes packed with a trailing
"0" into the 4-character parameter. -/
def readFrame (hold ccf : Bool) (rc : Char) (h : Nat) : List Char :=
  messageEncodeShort h ['1', '0'] [holdCode hold, ccfCode ccf, rc, '0']

/-- The per-head loop of Protocol.readMeasurementData.  The device is the
list of long-frame replies the transport will deliver, consumed in order.
Returns the short frames sent, the (head, data) rows written to the CSV
files, and the final outcome; a reply whose echoed head differs from the
addressed head raises ProtocolException, writing nothing for that head. -/
def runReads (hold ccf : Bool) (rc : Char) :
    List Nat → List (List Char) →
    List (List Char) × List (Nat × (Option ℚ × Option ℚ × Option ℚ)) ×
      Except Err Unit
  | [], _ => ([], [], .ok ())
  | h :: _, [] => ([readFrame hold ccf rc h], [], .error .transport)
  | h :: hs, r :: rs =>
    match receiveLong r with
    | .error e => ([readFrame hold ccf rc h], [], .error e)
    | .ok d =>
      if d.head = h then
        let rest := runReads hold ccf rc hs rs
        (readFrame hold ccf rc h :: rest.1, (h, d.data) :: rest.2.1, rest.2.2)
      else ([readFrame hold ccf rc h], [], .error .protocol)

/-- Protocol.readMeasurementData: select the range code (raising before any
frame is sent when it is invalid), then run one full exchange per head in
the given order. -/
def readMeasurementData (heads : List Nat) (hold ccf : Bool) (rng : RangeArg)
    (replies : List (List Char)) :
    List (List Char) × List (Nat × (Option ℚ × Option ℚ × Option ℚ)) ×
      Except Err Unit :=
  match rangeCode rng with
  | .error e => ([], [], .error e)
  | .ok rc => runReads hold ccf rc heads replies

/-- Build a frame with a correct BCC from a payload (head, command and
parameter or status and data): the span BCCed is the payload plus ETX. -/
def mkFrame (payload : List Char) : List Char :=
  '\x02' :: ((payload ++ ['\x03']) ++ computeBcc (payload ++ ['\x03']) ++
    ['\x0D', '\x0A'])

/-- A reply r answers head h when it is received, status-checked and decoded
without error and echoes h as its head. -/
def goodReply (h : Nat) (r : List Char) : Prop :=
  ∃ d, receiveLong r = .ok d ∧ d.head = h

/-- The correctly echoed mode-switch reply: head field "00", command "54",
four-space parameter, with a valid BCC. -/
def pcModeEcho : List Char := mkFrame ['0', '0', '5', '4', ' ', ' ', ' ', ' ']

/-- A well-formed long frame for head 0, command "10", status "   1" (benign
error position, battery position "1") and three blank data fields. -/
def lowBattFrame : List Char :=
  mkFrame (['0', '0', '1', '0', ' ', ' ', ' ', '1'] ++
    spaces6 ++ spaces6 ++ spaces6)

/-- A well-formed short frame whose BCC "0a" contains a hex letter: head
"00", command "54", parameter "   (". -/
def bccLetterFrame : List Char := mkFrame ['0', '0', '5', '4', ' ', ' ', ' ', '(']

/-- A well-formed long frame answering head 1 with benign status "   0" and
three blank data fields. -/
def goodReplyFrame1 : List Char :=
  mkFrame (['0', '1', '1', '0', ' ', ' ', ' ', '0'] ++
    spaces6 ++ spaces6 ++ spaces6)

/-- A well-formed long frame echoing head 2 (benign status, blank data),
used as a wrong-head reply to a command addressed to head 1. -/
def wrongHeadFrame : List Char :=
  mkFrame (['0', '2', '1', '0', ' ', ' ', ' ', '0'] ++
    spaces6 ++ spaces6 ++ spaces6)

/-- A 14-character input with no STX, ETX, CR or LF anywhere: position 0 is
"x", position 9 (the ETX slot, still inside the BCC span) is "Q", and the
trailing positions 12-13 are "!?"; the BCC field "50" matches the XOR of
positions 1-9. -/
def noFramingFrame : List Char :=
  ['x', '0', '0', '5', '4', ' ', ' ', ' ', ' ', 'Q', '5', '0', '!', '?']

/-- The low-battery long frame with its STX, CR and LF replaced by junk
characters; bytes 1-29 are unchanged. -/
def mangledLongFrame : List Char :=
  'z' :: (pySlice lowBattFrame 1 30 ++ ['x', 'y'])

deriving instance DecidableEq for Except

/-- Unfolding the slice to drop-then-take form. -/
theorem pySlice_eq (l : List α) (a b : Nat) :
    pySlice l a b = (l.drop a).take (b - a) := List.drop_take b a l

/-- For heads below 100, "%02d" yields two characters, byte-valued, that
int() reads back to the head. -/
theorem dec2_spec : ∀ n < 100, (dec2 n).length = 2 ∧
    parseDec (dec2 n) = some n ∧ ∀ c ∈ dec2 n, c.toNat < 256 := by decide

set_option maxRecDepth 4000 in
/-- For byte values, "%02x" yields two characters that int(_, 16) reads back
to the value. -/
theorem hex2_spec : ∀ n < 256, (hex2 n).length = 2 ∧
    parseHex (hex2 n) = some n := by decide

/-- A hex digit value is below 16. -/
theorem hexDigit?_lt {c : Char} {d : Nat} (h : hexDigit? c = some d) :
    d < 16 := by
  unfold hexDigit? at h
  split at h
  next hc => injection h with h; omega
  next =>
    split at h
    next hc => injection h with h; omega
    next =>
      split at h
      next hc => injection h with h; omega
      next => exact absurd h (by simp)

/-- Two hex digits read back to a byte value. -/
theorem parseHex_pair_lt {a b : Char} {v : Nat}
    (h : parseHex [a, b] = some v) : v < 256 := by
  simp only [parseHex, List.foldlM] at h
  cases ha : hexDigit? a with
  | none => simp [ha] at h
  | some da =>
    cases hb : hexDigit? b with
    | none => simp [ha, hb] at h
    | some db =>
      simp [ha, hb] at h
      have h1 := hexDigit?_lt ha
      have h2 := hexDigit?_lt hb
      omega

/-- Folding XOR from a byte value over byte-valued characters stays below
256. -/
theorem foldl_xor_lt : ∀ (l : List Char) (a : Nat), a < 256 →
    (∀ c ∈ l, c.toNat < 256) →
    List.foldl (fun a c => a ^^^ c.toNat) a l < 256 := by
  intro l
  induction l with
  | nil => intro a ha _; simpa using ha
  | cons c t ih =>
    intro a ha h
    simp only [List.foldl_cons]
    refine ih _ ?_ (fun x hx => h x (List.mem_cons_of_mem _ hx))
    have hc := h c (List.mem_cons_self _ _)
    have h8 : (256 : Nat) = 2 ^ 8 := by norm_num
    rw [h8] at ha hc ⊢
    exact Nat.xor_lt_two_pow ha hc

/-- The XOR checksum of a byte-valued span is a byte value. -/
theorem xorAll_lt {l : List Char} (h : ∀ c ∈ l, c.toNat < 256) :
    xorAll l < 256 :=
  foldl_xor_lt l 0 (by norm_num) h

/-- The BCC check passes exactly when both sides parse to the same hex
value. -/
theorem assertBcc_ok_iff {b act : List Char} :
    assertBcc b act = .ok () ↔
      ∃ v, parseHex act = some v ∧ parseHex (computeBcc b) = some v := by
  unfold assertBcc
  cases ha : parseHex act with
  | none => simp
  | some a =>
    cases he : parseHex (computeBcc b) with
    | none => simp
    | some e =>
      by_cases hae : a = e
      · subst hae; simp
      · simp [hae]
        exact fun h => hae h.symm

/-- A successful short decode wraps a successful BCC check. -/
theorem messageDecodeShort_ok_bcc {i : List Char}
    {out : Nat × List Char × List Char}
    (h : messageDecodeShort i = .ok out) :
    assertBcc (pySlice i 1 10) (pySlice i 10 12) = .ok () := by
  unfold messageDecodeShort at h
  cases hb : assertBcc (pySlice i 1 10) (pySlice i 10 12) with
  | error e =>
    rw [hb] at h
    simp only [bind, Except.bind] at h
    exact Except.noConfusion h
  | ok u => cases u; rfl

/-- A successful long decode wraps a successful BCC check. -/
theorem messageDecodeLong_ok_bcc {i : List Char} {out : LongMsg}
    (h : messageDecodeLong i = .ok out) :
    assertBcc (pySlice i 1 28) (pySlice i 28 30) = .ok () := by
  unfold messageDecodeLong at h
  cases hb : assertBcc (pySlice i 1 28) (pySlice i 28 30) with
  | error e =>
    rw [hb] at h
    simp only [bind, Except.bind] at h
    exact Except.noConfusion h
  | ok u => cases u; rfl

/-- The short decoder succeeds as soon as the BCC read from i[10:12] equals
the XOR of i[1:10] and the head slice is numeric; no other byte of the
message is examined. -/
theorem messageDecodeShort_eq_ok {i : List Char} {v hd : Nat}
    (hact : parseHex (pySlice i 10 12) = some v) (hv : v < 256)
    (hxor : xorAll (pySlice i 1 10) = v)
    (hhd : parseDec (pySlice i 1 3) = some hd) :
    messageDecodeShort i = .ok (hd, pySlice i 3 5, pySlice i 5 9) := by
  have he : parseHex (computeBcc (pySlice i 1 10)) = some v := by
    rw [computeBcc, hxor]; exact (hex2_spec v hv).2
  have hb : assertBcc (pySlice i 1 10) (pySlice i 10 12) = .ok () := by
    unfold assertBcc; rw [hact, he]; simp
  simp only [messageDecodeShort, hb, hhd, bind, Except.bind]

/-- A list of length four is a four-element literal. -/
theorem length_eq_four {l : List α} (h : l.length = 4) :
    ∃ a b c d, l = [a, b, c, d] :=
  match l, h with
  | [a, b, c, d], rfl => ⟨a, b, c, d, rfl⟩

/-- C1: for every head in 0-99, every 2-character command and every
4-character byte-valued parameter, decoding the encoding round-trips: the
short decoder recovers exactly the head, command and parameter that were
encoded. -/
theorem encode_decode_short_roundtrip
    (head : Nat) (command parameter : List Char)
    (hh : head < 100) (hc : command.length = 2) (hp : parameter.length = 4)
    (hcb : ∀ c ∈ command, c.toNat < 256)
    (hpb : ∀ c ∈ parameter, c.toNat < 256) :
    messageDecodeShort (messageEncodeShort head command parameter) =
      .ok (head, command, parameter) := by
  obtain ⟨c1, c2, rfl⟩ := List.length_eq_two.mp hc
  obtain ⟨p1, p2, p3, p4, rfl⟩ := length_eq_four hp
  obtain ⟨h1, h2, hdh⟩ := List.length_eq_two.mp (dec2_spec head hh).1
  have hL : dec2 head ++ [c1, c2] ++ [p1, p2, p3, p4] ++ ['\x03'] =
      [h1, h2, c1, c2, p1, p2, p3, p4, '\x03'] := by rw [hdh]; rfl
  have hLb : ∀ c ∈ [h1, h2, c1, c2, p1, p2, p3, p4, '\x03'],
      c.toNat < 256 := by
    intro c hm
    simp only [List.mem_cons, List.not_mem_nil, or_false] at hm
    rcases hm with rfl | rfl | rfl | rfl | rfl | rfl | rfl | rfl | rfl
    · exact (dec2_spec head hh).2.2 c (by rw [hdh]; simp)
    · exact (dec2_spec head hh).2.2 c (by rw [hdh]; simp)
    · exact hcb c (by simp)
    · exact hcb c (by simp)
    · exact hpb c (by simp)
    · exact hpb c (by simp)
    · exact hpb c (by simp)
    · exact hpb c (by simp)
    · decide
  have hx : xorAll [h1, h2, c1, c2, p1, p2, p3, p4, '\x03'] < 256 :=
    xorAll_lt hLb
  obtain ⟨x1, x2, hhex⟩ := List.length_eq_two.mp (hex2_spec _ hx).1
  have hpx : parseHex [x1, x2] =
      some (xorAll [h1, h2, c1, c2, p1, p2, p3, p4, '\x03']) :=
    hhex ▸ (hex2_spec _ hx).2
  have henc : messageEncodeShort head [c1, c2] [p1, p2, p3, p4] =
      ['\x02', h1, h2, c1, c2, p1, p2, p3, p4, '\x03', x1, x2,
        '\x0D', '\x0A'] := by
    simp only [messageEncodeShort, computeBcc]
    rw [hL, hhex]
    rfl
  rw [henc]
  have hhd : parseDec (dec2 head) = some head := (dec2_spec head hh).2.1
  rw [hdh] at hhd
  exact messageDecodeShort_eq_ok hpx hx rfl hhd

/-- Witness for C1 at head 7, command "54", parameter of four spaces. -/
theorem encode_decode_short_roundtrip_witness :
    messageDecodeShort
        (messageEncodeShort 7 ['5', '4'] [' ', ' ', ' ', ' ']) =
      .ok (7, ['5', '4'], [' ', ' ', ' ', ' ']) :=
  encode_decode_short_roundtrip 7 ['5', '4'] [' ', ' ', ' ', ' ']
    (by decide) (by decide) (by decide) (by decide) (by decide)

set_option maxRecDepth 4000 in
/-- C2: the correctly echoed short frame decodes to exactly the expected
head 0, command "54" and empty four-space parameter, yet
switchToPcConnectionMode still raises ProtocolException: the source compares
the decoded integer head 0 against the string "00" inside responseExpected,
so the comparison can never succeed. -/
theorem pcConnectionMode_rejects_correct_echo :
    messageDecodeShort pcModeEcho = .ok (0, ['5', '4'], [' ', ' ', ' ', ' ']) ∧
    switchToPcConnectionMode pcModeEcho = .error .protocol := by
  constructor <;> decide

/-- C3 counterexample: the status word " 9 0" has the unknown error code "9"
at position 1, yet checkStatus succeeds: the unknown code is silently
treated as Ok, and no FormatError exists in the code. -/
theorem checkStatus_unknown_code_silently_ok :
    checkStatus [' ', '9', ' ', '0'] = .ok () := by decide

/-- C3 amended: checkStatus silently skips every error code outside the
enumeration (space, "7", "1", "2", "3", "5"): classification falls through
to the battery check, and with a battery code other than "1" or "3" the
status is treated as Ok. -/
theorem checkStatus_unknown_code_passes (s : List Char) (c b : Char)
    (h1 : s.get? 1 = some c)
    (hc : c ≠ ' ' ∧ c ≠ '7' ∧ c ≠ '1' ∧ c ≠ '2' ∧ c ≠ '3' ∧ c ≠ '5')
    (h3 : s.get? 3 = some b) (hb : b ≠ '1' ∧ b ≠ '3') :
    checkStatus s = .ok () := by
  obtain ⟨hc1, hc2, hc3, hc4, hc5, hc6⟩ := hc
  unfold checkStatus
  rw [h1]
  show (if c = ' ' ∨ c = '7' then battCheck s
    else if c = '1' then Except.error Err.powerOff
    else if c = '2' then Except.error (Err.eeprom 1)
    else if c = '3' then Except.error (Err.eeprom 2)
    else if c = '5' then Except.error Err.overRange
    else battCheck s) = Except.ok ()
  rw [if_neg (not_or.mpr ⟨hc1, hc2⟩), if_neg hc3, if_neg hc4,
    if_neg hc5, if_neg hc6]
  unfold battCheck
  rw [h3]
  show (if b = '0' ∨ b = '2' then Except.ok ()
    else if b = '1' ∨ b = '3' then Except.error Err.lowBattery
    else Except.ok ()) = Except.ok ()
  by_cases hb0 : b = '0' ∨ b = '2'
  · rw [if_pos hb0]
  · rw [if_neg hb0, if_neg (not_or.mpr ⟨hb.1, hb.2⟩)]

/-- Witness for the amended C3 at the status word " 9 0". -/
theorem checkStatus_unknown_code_passes_witness :
    checkStatus [' ', '9', ' ', '2'] = .ok () :=
  checkStatus_unknown_code_passes [' ', '9', ' ', '2'] '9' '2'
    (by decide) (by decide) (by decide) (by decide)

set_option maxRecDepth 8000 in
/-- C4 counterexample: a long frame with battery position "1" decodes to an
otherwise valid message, but receiveLong raises LowBatteryError instead of
returning the reading: the exchange aborts and the caller gets no data. -/
theorem receiveLong_low_battery_raises :
    messageDecodeLong lowBattFrame =
      .ok ⟨0, ['1', '0'], [' ', ' ', ' ', '1'], (none, none, none)⟩ ∧
    receiveLong lowBattFrame = .error .lowBattery := by
  constructor <;> decide

/-- C4 amended: when a received long frame's status word has battery
position "1" or "3" and a benign error position, the LowBattery condition
is raised as an exception: receiveLong fails with LowBatteryError and the
decoded reading is not returned to the caller. -/
theorem low_battery_aborts_exchange (i : List Char) (d : LongMsg)
    (hd : messageDecodeLong i = .ok d)
    (he : d.status.get? 1 = some ' ' ∨ d.status.get? 1 = some '7')
    (hb : d.status.get? 3 = some '1' ∨ d.status.get? 3 = some '3') :
    receiveLong i = .error .lowBattery := by
  have hcs : checkStatus d.status = .error .lowBattery := by
    unfold checkStatus battCheck
    rcases he with he | he <;> rcases hb with hb | hb <;> rw [he, hb] <;> rfl
  unfold receiveLong
  rw [hd]
  simp only [bind, Except.bind]
  rw [hcs]

set_option maxRecDepth 8000 in
/-- Witness for the amended C4 at the concrete low-battery frame. -/
theorem low_battery_aborts_exchange_witness :
    receiveLong lowBattFrame = .error .lowBattery :=
  low_battery_aborts_exchange lowBattFrame
    ⟨0, ['1', '0'], [' ', ' ', ' ', '1'], (none, none, none)⟩
    (by decide) (by decide) (by decide)

/-- C5: dataToNumber on a sign-digits-exponent field returns the value
int(digits) times ten to the power int(exponent) minus four, negated exactly
when the sign character is a minus; it returns None exactly on the
six-space field, which a digits field can never be. -/
theorem dataToNumber_spec (s d1 d2 d3 d4 e : Char) (V E : ℕ)
    (hV : parseDec [d1, d2, d3, d4] = some V)
    (hE : decDigit? e = some E) :
    dataToNumber [s, d1, d2, d3, d4, e] =
      .ok (some (if s = '-' then -((V : ℚ) * (10 : ℚ) ^ ((E : ℤ) - 4))
        else (V : ℚ) * (10 : ℚ) ^ ((E : ℤ) - 4))) ∧
    [s, d1, d2, d3, d4, e] ≠ spaces6 ∧
    dataToNumber spaces6 = .ok none := by
  have hne : [s, d1, d2, d3, d4, e] ≠ spaces6 := by
    intro hcontra
    simp only [spaces6, List.cons.injEq, and_true] at hcontra
    obtain ⟨rfl, rfl, rfl, rfl, rfl, rfl⟩ := hcontra
    rw [show parseDec [' ', ' ', ' ', ' '] = none from by decide] at hV
    exact Option.noConfusion hV
  refine ⟨?_, hne, by decide⟩
  simp only [dataToNumber, if_neg hne,
    show pySlice [s, d1, d2, d3, d4, e] 1 5 = [d1, d2, d3, d4] from rfl,
    show [s, d1, d2, d3, d4, e].get? 5 = some e from rfl,
    show [s, d1, d2, d3, d4, e].get? 0 = some s from rfl, hV, hE]

/-- Witness for C5: the field " 12342" decodes to 1234 times ten to the
power two minus four, the spec's 12.34 example. -/
theorem dataToNumber_spec_witness :
    dataToNumber [' ', '1', '2', '3', '4', '2'] =
      .ok (some (if (' ' : Char) = '-'
        then -((1234 : ℚ) * (10 : ℚ) ^ ((2 : ℤ) - 4))
        else (1234 : ℚ) * (10 : ℚ) ^ ((2 : ℤ) - 4))) ∧
    [' ', '1', '2', '3', '4', '2'] ≠ spaces6 ∧
    dataToNumber spaces6 = .ok none :=
  dataToNumber_spec ' ' '1' '2' '3' '4' '2' 1234 2 (by decide) (by decide)

/-- C7 counterexample: messageEncodeShort raises no FormatError: a head of
100 is formatted as three digits inside a 15-byte frame, and an empty
parameter still yields a (10-byte) frame. -/
theorem encode_no_validation :
    (messageEncodeShort 100 ['5', '4'] [' ', ' ', ' ', ' ']).length = 15 ∧
    pySlice (messageEncodeShort 100 ['5', '4'] [' ', ' ', ' ', ' ']) 1 4 =
      ['1', '0', '0'] ∧
    (messageEncodeShort 0 ['5', '4'] []).length = 10 := by decide

/-- C7 amended: the encoder validates nothing (every head and parameter
produce a frame), and for every head in 0-99 the head field of the emitted
frame is exactly the two zero-padded decimal digits of the head. -/
theorem encode_head_two_digits (head : Nat) (command parameter : List Char)
    (hh : head < 100) :
    pySlice (messageEncodeShort head command parameter) 1 3 = dec2 head ∧
    (dec2 head).length = 2 ∧ parseDec (dec2 head) = some head := by
  refine ⟨?_, (dec2_spec head hh).1, (dec2_spec head hh).2.1⟩
  simp only [messageEncodeShort, pySlice_eq, List.drop_one, List.tail_cons,
    List.append_assoc]
  exact List.take_left' (dec2_spec head hh).1

/-- Witness for the amended C7 at head 5. -/
theorem encode_head_two_digits_witness :
    pySlice (messageEncodeShort 5 ['5', '4'] [' ', ' ', ' ', ' ']) 1 3 =
      dec2 5 ∧
    (dec2 5).length = 2 ∧ parseDec (dec2 5) = some 5 :=
  encode_head_two_digits 5 ['5', '4'] [' ', ' ', ' ', ' '] (by decide)

/-- Every range band condition ends in an upper bound, so a value above that
bound refutes it. -/
theorem not_band_of_gt {q hi : ℚ} (h : hi < q) (p : Prop) : ¬(p ∧ q ≤ hi) :=
  fun hcon => absurd hcon.2 (not_le.mpr h)

/-- C6: range selection in readMeasurementData: "auto" is the sentinel code
"0"; a numeric value is bucketed into five decade bands with five distinct
codes (so 150 and 299.9 share code "2"); a value above the top band raises
the invalid-range ValueError, and it does so before any frame is sent. -/
theorem range_code_bands :
    rangeCode .auto = .ok '0' ∧
    (∀ q : ℚ, 0 ≤ q → q ≤ 29.99 → rangeCode (.num q) = .ok '1') ∧
    (∀ q : ℚ, 29.99 < q → q ≤ 299.9 → rangeCode (.num q) = .ok '2') ∧
    (∀ q : ℚ, 299.9 < q → q ≤ 2999 → rangeCode (.num q) = .ok '3') ∧
    (∀ q : ℚ, 2999 < q → q ≤ 29999 → rangeCode (.num q) = .ok '4') ∧
    (∀ q : ℚ, 29999 < q → q ≤ 299999 → rangeCode (.num q) = .ok '5') ∧
    (∀ q : ℚ, 299999 < q → rangeCode (.num q) = .error .invalidRange) ∧
    (['0', '1', '2', '3', '4', '5'] : List Char).Nodup ∧
    (∀ (heads : List Nat) (hold ccf : Bool) (replies : List (List Char)),
      readMeasurementData heads hold ccf (.num 300000) replies =
        ([], [], .error .invalidRange)) := by
  have htop : rangeCode (.num 300000) = .error .invalidRange := by
    simp only [rangeCode]
    norm_num
  refine ⟨rfl, ?_, ?_, ?_, ?_, ?_, ?_, by decide, ?_⟩
  · intro q hlo hhi
    simp only [rangeCode]
    rw [if_pos ⟨hlo, hhi⟩]
  · intro q hlo hhi
    simp only [rangeCode]
    rw [if_neg (not_band_of_gt hlo _), if_pos ⟨hlo, hhi⟩]
  · intro q hlo hhi
    simp only [rangeCode]
    rw [if_neg (not_band_of_gt
        (lt_of_le_of_lt (show (29.99 : ℚ) ≤ 299.9 by norm_num) hlo) _),
      if_neg (not_band_of_gt hlo _), if_pos ⟨hlo, hhi⟩]
  · intro q hlo hhi
    simp only [rangeCode]
    rw [if_neg (not_band_of_gt
        (lt_of_le_of_lt (show (29.99 : ℚ) ≤ 2999 by norm_num) hlo) _),
      if_neg (not_band_of_gt
        (lt_of_le_of_lt (show (299.9 : ℚ) ≤ 2999 by norm_num) hlo) _),
      if_neg (not_band_of_gt hlo _), if_pos ⟨hlo, hhi⟩]
  · intro q hlo hhi
    simp only [rangeCode]
    rw [if_neg (not_band_of_gt
        (lt_of_le_of_lt (show (29.99 : ℚ) ≤ 29999 by norm_num) hlo) _),
      if_neg (not_band_of_gt
        (lt_of_le_of_lt (show (299.9 : ℚ) ≤ 29999 by norm_num) hlo) _),
      if_neg (not_band_of_gt
        (lt_of_le_of_lt (show (2999 : ℚ) ≤ 29999 by norm_num) hlo) _),
      if_neg (not_band_of_gt hlo _), if_pos ⟨hlo, hhi⟩]
  · intro q hlo
    simp only [rangeCode]
    rw [if_neg (not_band_of_gt
        (lt_of_le_of_lt (show (29.99 : ℚ) ≤ 299999 by norm_num) hlo) _),
      if_neg (not_band_of_gt
        (lt_of_le_of_lt (show (299.9 : ℚ) ≤ 299999 by norm_num) hlo) _),
      if_neg (not_band_of_gt
        (lt_of_le_of_lt (show (2999 : ℚ) ≤ 299999 by norm_num) hlo) _),
      if_neg (not_band_of_gt
        (lt_of_le_of_lt (show (29999 : ℚ) ≤ 299999 by norm_num) hlo) _),
      if_neg (not_band_of_gt hlo _)]
  · intro heads hold ccf replies
    unfold readMeasurementData
    rw [htop]

/-- Witness for C6: 150 and 299.9 share the range code "2", auto is the
sentinel "0", and 300000 is rejected. -/
theorem range_code_bands_witness :
    rangeCode (.num 150) = .ok '2' ∧ rangeCode (.num 299.9) = .ok '2' ∧
    rangeCode (.num 300000) = .error .invalidRange ∧
    rangeCode .auto = .ok '0' ∧
    readMeasurementData [1] false false (.num 300000) [] =
      ([], [], .error .invalidRange) :=
  ⟨range_code_bands.2.2.1 150 (by norm_num) (by norm_num),
   range_code_bands.2.2.1 (299.9 : ℚ) (by norm_num) (by norm_num),
   range_code_bands.2.2.2.2.2.2.1 300000 (by norm_num),
   range_code_bands.1,
   range_code_bands.2.2.2.2.2.2.2.2 [1] false false []⟩

set_option maxRecDepth 4000 in
/-- C8 counterexample: altering the checksum characters of a well-formed
frame from "0a" to the different pair "0A" does not cause a ChecksumError:
the BCC comparison is between parsed hex values, so the altered frame still
decodes, to the same result. -/
theorem checksum_case_change_accepted :
    pySlice bccLetterFrame 10 12 = ['0', 'a'] ∧
    (bccLetterFrame.take 10 ++ ['0', 'A'] ++ bccLetterFrame.drop 12) ≠
      bccLetterFrame ∧
    messageDecodeShort bccLetterFrame =
      .ok (0, ['5', '4'], [' ', ' ', ' ', '(']) ∧
    messageDecodeShort
        (bccLetterFrame.take 10 ++ ['0', 'A'] ++ bccLetterFrame.drop 12) =
      .ok (0, ['5', '4'], [' ', ' ', ' ', '(']) := by
  refine ⟨by decide, by decide, by decide, by decide⟩

/-- Replacing two characters after a ten-character prefix keeps the
prefix. -/
theorem altered_take {i p r : List Char} {n : Nat} (hn : n ≤ i.length) :
    (i.take n ++ p ++ r).take n = i.take n := by
  rw [List.append_assoc]
  exact List.take_left' (by rw [List.length_take]; omega)

/-- Dropping the prefix of an altered frame exposes the replacement. -/
theorem altered_drop {i p r : List Char} {n : Nat} (hn : n ≤ i.length) :
    (i.take n ++ p ++ r).drop n = p ++ r := by
  rw [List.append_assoc]
  exact List.drop_left' (by rw [List.length_take]; omega)

/-- C8 amended: altering the checksum characters of a well-formed frame to
a pair spelling a different hexadecimal value makes the decoder fail with
BCCException, for short frames (checksum at positions 10-11) and long
frames (positions 28-29) alike; a different pair spelling the same value
(such as an upper-case variant) is accepted instead. -/
theorem checksum_value_mismatch_rejected :
    (∀ (i : List Char) (b1 b2 : Char) (out : Nat × List Char × List Char)
       (v w : Nat), i.length = 14 →
      messageDecodeShort i = .ok out →
      parseHex (pySlice i 10 12) = some v →
      parseHex [b1, b2] = some w → w ≠ v →
      messageDecodeShort (i.take 10 ++ [b1, b2] ++ i.drop 12) =
        .error .bcc) ∧
    (∀ (i : List Char) (b1 b2 : Char) (out : LongMsg) (v w : Nat),
      i.length = 32 →
      messageDecodeLong i = .ok out →
      parseHex (pySlice i 28 30) = some v →
      parseHex [b1, b2] = some w → w ≠ v →
      messageDecodeLong (i.take 28 ++ [b1, b2] ++ i.drop 30) =
        .error .bcc) := by
  constructor
  · intro i b1 b2 out v w hlen hok hv hw hne
    obtain ⟨x, hx1, hx2⟩ := assertBcc_ok_iff.mp (messageDecodeShort_ok_bcc hok)
    rw [hx1] at hv
    have hxv : x = v := Option.some.inj hv
    subst hxv
    have hs1 : pySlice (i.take 10 ++ [b1, b2] ++ i.drop 12) 1 10 =
        pySlice i 1 10 := by
      unfold pySlice
      rw [altered_take (by omega)]
    have hs2 : pySlice (i.take 10 ++ [b1, b2] ++ i.drop 12) 10 12 =
        [b1, b2] := by
      rw [pySlice_eq, altered_drop (by omega)]
      rfl
    have hab : assertBcc (pySlice i 1 10) [b1, b2] = .error .bcc := by
      unfold assertBcc
      rw [hw, hx2]
      show (if w ≠ x then Except.error Err.bcc else Except.ok ()) =
        Except.error Err.bcc
      rw [if_pos hne]
    unfold messageDecodeShort
    rw [hs1, hs2, hab]
    rfl
  · intro i b1 b2 out v w hlen hok hv hw hne
    obtain ⟨x, hx1, hx2⟩ := assertBcc_ok_iff.mp (messageDecodeLong_ok_bcc hok)
    rw [hx1] at hv
    have hxv : x = v := Option.some.inj hv
    subst hxv
    have hs1 : pySlice (i.take 28 ++ [b1, b2] ++ i.drop 30) 1 28 =
        pySlice i 1 28 := by
      unfold pySlice
      rw [altered_take (by omega)]
    have hs2 : pySlice (i.take 28 ++ [b1, b2] ++ i.drop 30) 28 30 =
        [b1, b2] := by
      rw [pySlice_eq, altered_drop (by omega)]
      rfl
    have hab : assertBcc (pySlice i 1 28) [b1, b2] = .error .bcc := by
      unfold assertBcc
      rw [hw, hx2]
      show (if w ≠ x then Except.error Err.bcc else Except.ok ()) =
        Except.error Err.bcc
      rw [if_pos hne]
    unfold messageDecodeLong
    rw [hs1, hs2, hab]
    rfl

set_option maxRecDepth 8000 in
/-- Witness for the amended C8: a short frame with BCC "02" altered to "03"
and a long frame with BCC "13" altered to "00" are both rejected. -/
theorem checksum_value_mismatch_rejected_witness :
    messageDecodeShort (pcModeEcho.take 10 ++ ['0', '3'] ++
      pcModeEcho.drop 12) = .error .bcc ∧
    messageDecodeLong (lowBattFrame.take 28 ++ ['0', '0'] ++
      lowBattFrame.drop 30) = .error .bcc :=
  ⟨checksum_value_mismatch_rejected.1 pcModeEcho '0' '3'
      (0, ['5', '4'], [' ', ' ', ' ', ' ']) 2 3
      (by decide) (by decide) (by decide) (by decide) (by decide),
   checksum_value_mismatch_rejected.2 lowBattFrame '0' '0'
      ⟨0, ['1', '0'], [' ', ' ', ' ', '1'], (none, none, none)⟩ 19 0
      (by decide) (by decide) (by decide) (by decide) (by decide)⟩

/-- A take-prefix agreement transfers to any window inside it. -/
theorem take_drop_determined (m : Nat) {X Y : List α} {k t : Nat}
    (h : X.take m = Y.take m) (hkt : k + t ≤ m) :
    (X.drop k).take t = (Y.drop k).take t := by
  have key : ∀ Z : List α, (Z.drop k).take t = ((Z.take m).drop k).take t := by
    intro Z
    calc (Z.drop k).take t
        = ((Z.drop k).take (m - k)).take t := by
          rw [List.take_take, min_eq_left (by omega)]
      _ = ((Z.take m).drop k).take t := by rw [List.drop_take m k Z]
  rw [key X, key Y, h]

/-- Two messages agreeing on the slice 1..n agree on every interior
slice. -/
theorem pySlice_congr {i j : List α} {n : Nat} (a b : Nat)
    (hij : pySlice i 1 n = pySlice j 1 n) (ha : 1 ≤ a) (hab : a ≤ b)
    (hb : b ≤ n) :
    pySlice i a b = pySlice j a b := by
  rw [pySlice_eq, pySlice_eq]
  have hi : i.drop a = (i.drop 1).drop (a - 1) := by
    rw [List.drop_drop]
    congr 1
    omega
  have hj : j.drop a = (j.drop 1).drop (a - 1) := by
    rw [List.drop_drop]
    congr 1
    omega
  rw [hi, hj]
  rw [pySlice_eq, pySlice_eq] at hij
  exact take_drop_determined (n - 1) hij (by omega)

/-- The characters at positions 1 and 2 are the head slice. -/
theorem slice13_of_get {i : List Char} {c1 c2 : Char}
    (h1 : i.get? 1 = some c1) (h2 : i.get? 2 = some c2) :
    pySlice i 1 3 = [c1, c2] := by
  cases i with
  | nil => simp at h1
  | cons a t =>
    cases t with
    | nil => simp at h1
    | cons b t2 =>
      cases t2 with
      | nil => simp at h2
      | cons c t3 =>
        simp only [List.get?] at h1 h2
        rw [Option.some.inj h1, Option.some.inj h2]
        rfl

/-- Two decimal digits read back through int(). -/
theorem parseDec_pair {c1 c2 : Char} (h1 : 48 ≤ c1.toNat) (h2 : c1.toNat ≤ 57)
    (h3 : 48 ≤ c2.toNat) (h4 : c2.toNat ≤ 57) :
    parseDec [c1, c2] = some ((c1.toNat - 48) * 10 + (c2.toNat - 48)) := by
  have e1 : decDigit? c1 = some (c1.toNat - 48) := by
    unfold decDigit?
    rw [if_pos ⟨h1, h2⟩]
  have e2 : decDigit? c2 = some (c2.toNat - 48) := by
    unfold decDigit?
    rw [if_pos ⟨h3, h4⟩]
  simp [parseDec, List.foldlM, e1, e2]

/-- C10: the decoders never validate the framing bytes.  Short: every
14-character input whose positions 1-9 XOR to the hex value spelled at
positions 10-11 and whose positions 1-2 are decimal digits decodes
successfully, whatever the characters at position 0 (the STX slot),
position 9 (the ETX slot, constrained only through the XOR) and positions
12-13 (the CR LF slots).  Long: the long decoder reads nothing outside
bytes 1..29 of its 32-byte layout, so inputs agreeing there decode
identically whatever their STX, CR and LF bytes. -/
theorem decoders_ignore_framing_bytes :
    (∀ (i : List Char) (c1 c2 : Char) (v : Nat),
      i.length = 14 →
      i.get? 1 = some c1 → 48 ≤ c1.toNat → c1.toNat ≤ 57 →
      i.get? 2 = some c2 → 48 ≤ c2.toNat → c2.toNat ≤ 57 →
      parseHex (pySlice i 10 12) = some v →
      xorAll (pySlice i 1 10) = v →
      messageDecodeShort i =
        .ok ((c1.toNat - 48) * 10 + (c2.toNat - 48),
          pySlice i 3 5, pySlice i 5 9)) ∧
    (∀ i j : List Char, i.length = 32 → j.length = 32 →
      pySlice i 1 30 = pySlice j 1 30 →
      messageDecodeLong i = messageDecodeLong j) := by
  constructor
  · intro i c1 c2 v hlen hg1 hd1 hd2 hg2 hd3 hd4 hv hxor
    obtain ⟨b1, b2, hpair⟩ : ∃ b1 b2, pySlice i 10 12 = [b1, b2] := by
      apply List.length_eq_two.mp
      rw [pySlice_eq, List.length_take, List.length_drop]
      omega
    have hv256 : v < 256 := by
      rw [hpair] at hv
      exact parseHex_pair_lt hv
    have hhd : parseDec (pySlice i 1 3) =
        some ((c1.toNat - 48) * 10 + (c2.toNat - 48)) := by
      rw [slice13_of_get hg1 hg2]
      exact parseDec_pair hd1 hd2 hd3 hd4
    exact messageDecodeShort_eq_ok hv hv256 hxor hhd
  · intro i j hi hj hij
    have e1 := pySlice_congr 1 28 hij (by omega) (by omega) (by omega)
    have e2 := pySlice_congr 28 30 hij (by omega) (by omega) (by omega)
    have e3 := pySlice_congr 1 3 hij (by omega) (by omega) (by omega)
    have e4 := pySlice_congr 3 5 hij (by omega) (by omega) (by omega)
    have e5 := pySlice_congr 5 9 hij (by omega) (by omega) (by omega)
    have e6 := pySlice_congr 9 15 hij (by omega) (by omega) (by omega)
    have e7 := pySlice_congr 15 21 hij (by omega) (by omega) (by omega)
    have e8 := pySlice_congr 21 27 hij (by omega) (by omega) (by omega)
    unfold messageDecodeLong
    rw [e1, e2, e3, e4, e5, e6, e7, e8]

set_option maxRecDepth 8000 in
/-- Witness for C10: a 14-character input with junk in the STX, ETX, CR and
LF slots still decodes, and the low-battery long frame with junk framing
bytes decodes exactly as the original. -/
theorem decoders_ignore_framing_bytes_witness :
    messageDecodeShort noFramingFrame =
      .ok (('0'.toNat - 48) * 10 + ('0'.toNat - 48),
        pySlice noFramingFrame 3 5, pySlice noFramingFrame 5 9) ∧
    messageDecodeLong mangledLongFrame = messageDecodeLong lowBattFrame :=
  ⟨decoders_ignore_framing_bytes.1 noFramingFrame '0' '0' 80
      (by decide) (by decide) (by decide) (by decide) (by decide)
      (by decide) (by decide) (by decide) (by decide),
   decoders_ignore_framing_bytes.2 mangledLongFrame lowBattFrame
      (by decide) (by decide) (by decide)⟩

/-- When every reply answers its head, the loop sends one frame per head in
order and records one row per head in order. -/
theorem runReads_forall2 (hold ccf : Bool) (rc : Char)
    {heads : List Nat} {replies : List (List Char)}
    (hf : List.Forall₂ goodReply heads replies) :
    ∃ rows, runReads hold ccf rc heads replies =
      (heads.map (readFrame hold ccf rc), rows, .ok ()) ∧
      rows.map Prod.fst = heads := by
  induction hf with
  | nil => exact ⟨[], rfl, rfl⟩
  | @cons h r hs rs hg hf2 ih =>
    obtain ⟨d, hrec, hhead⟩ := hg
    obtain ⟨rows, hrun, hmap⟩ := ih
    refine ⟨(h, d.data) :: rows, ?_, by simp [hmap]⟩
    simp only [runReads, hrec]
    rw [if_pos hhead, hrun]
    simp

/-- When the replies answer a prefix of the heads and the next reply echoes
a wrong head, the loop stops with ProtocolException right there: it has
sent exactly the frames up to and including the offending head and recorded
rows only for the preceding heads. -/
theorem runReads_mismatch (hold ccf : Bool) (rc : Char)
    {pre : List Nat} {rpre : List (List Char)}
    (h : Nat) (post : List Nat) (r : List Char) (rrest : List (List Char))
    (d : LongMsg) (hf : List.Forall₂ goodReply pre rpre)
    (hrec : receiveLong r = .ok d) (hne : d.head ≠ h) :
    ∃ rows, runReads hold ccf rc (pre ++ h :: post) (rpre ++ r :: rrest) =
      (pre.map (readFrame hold ccf rc) ++ [readFrame hold ccf rc h], rows,
        .error .protocol) ∧
      rows.map Prod.fst = pre := by
  induction hf with
  | nil =>
    refine ⟨[], ?_, rfl⟩
    simp only [List.nil_append, List.map_nil, runReads, hrec]
    rw [if_neg hne]
  | @cons h0 r0 hs rs hg hf2 ih =>
    obtain ⟨d0, hrec0, hhead0⟩ := hg
    obtain ⟨rows, hrun, hmap⟩ := ih
    refine ⟨(h0, d0.data) :: rows, ?_, by simp [hmap]⟩
    simp only [List.cons_append, runReads, hrec0, List.append_eq]
    rw [if_pos hhead0, hrun]
    simp

/-- C9: readMeasurementData processes the heads strictly in the given order
with exactly one full exchange per head: with all heads echoed correctly it
sends the per-head frames in order and returns one row per head in order;
as soon as a reply echoes a head different from the one addressed it fails
with ProtocolException, having recorded no row for that head. -/
theorem read_heads_in_order :
    (∀ (hold ccf : Bool) (rng : RangeArg) (rc : Char)
       (heads : List Nat) (replies : List (List Char)),
      rangeCode rng = .ok rc →
      List.Forall₂ goodReply heads replies →
      ∃ rows, readMeasurementData heads hold ccf rng replies =
        (heads.map (readFrame hold ccf rc), rows, .ok ()) ∧
        rows.map Prod.fst = heads) ∧
    (∀ (hold ccf : Bool) (rng : RangeArg) (rc : Char)
       (pre : List Nat) (rpre : List (List Char)) (h : Nat)
       (post : List Nat) (r : List Char) (rrest : List (List Char))
       (d : LongMsg),
      rangeCode rng = .ok rc →
      List.Forall₂ goodReply pre rpre →
      receiveLong r = .ok d → d.head ≠ h →
      ∃ rows, readMeasurementData (pre ++ h :: post) hold ccf rng
          (rpre ++ r :: rrest) =
        (pre.map (readFrame hold ccf rc) ++ [readFrame hold ccf rc h], rows,
          .error .protocol) ∧
        rows.map Prod.fst = pre) := by
  constructor
  · intro hold ccf rng rc heads replies hrc hf
    unfold readMeasurementData
    rw [hrc]
    exact runReads_forall2 hold ccf rc hf
  · intro hold ccf rng rc pre rpre h post r rrest d hrc hf hrec hne
    unfold readMeasurementData
    rw [hrc]
    exact runReads_mismatch hold ccf rc h post r rrest d hf hrec hne

set_option maxRecDepth 8000 in
/-- Witness for C9: one head answered correctly yields one frame and one
row; a single head answered by a reply echoing head 2 fails with
ProtocolException and no row. -/
theorem read_heads_in_order_witness :
    (∃ rows, readMeasurementData [1] false false .auto [goodReplyFrame1] =
      ([1].map (readFrame false false '0'), rows, .ok ()) ∧
      rows.map Prod.fst = [1]) ∧
    (∃ rows, readMeasurementData ([] ++ 1 :: []) false false .auto
        ([] ++ wrongHeadFrame :: []) =
      ([].map (readFrame false false '0') ++ [readFrame false false '0' 1],
        rows, .error .protocol) ∧
      rows.map Prod.fst = []) :=
  ⟨read_heads_in_order.1 false false .auto '0' [1] [goodReplyFrame1] rfl
      (List.Forall₂.cons
        ⟨⟨1, ['1', '0'], [' ', ' ', ' ', '0'], (none, none, none)⟩,
          by decide, rfl⟩
        List.Forall₂.nil),
   read_heads_in_order.2 false false .auto '0' [] [] 1 [] wrongHeadFrame []
      ⟨2, ['1', '0'], [' ', ' ', ' ', '0'], (none, none, none)⟩ rfl
      List.Forall₂.nil (by decide) (by decide)⟩
